import Mathlib

/-
Verification of the data pipeline of the baseball-stats dashboard
(`app.py` view builder and `import_csvs.py` importer).

Tables are shallowly embedded as lists of rows.  For the tolerant table
reader (`read_table`) a generic data frame is used: a list of column
names plus rows that are association lists from column name to cell
value.  The store read result is an `Option DataFrame`; `none` stands
for a table that does not exist or whose read raised.  Each dashboard
view is embedded over a typed row structure matching the columns the
view touches.  Nullable cells (pandas NA) are `Option` values; machine
floats only ever pass through the pipeline unexamined, so float cells
are modelled as exact rationals.
-/

namespace BaseballDash

/-- A cell value of a stored table: string, integer, float (modelled
exactly as a rational), or the null/NA marker. -/
inductive Value where
  | vStr : String → Value
  | vInt : Int → Value
  | vRat : Rat → Value
  | vNull : Value
deriving DecidableEq

/-- A data-frame row: association list from column name to cell value. -/
abbrev Row := List (String × Value)

/-- A pandas data frame: ordered column names and rows. -/
structure DataFrame where
  cols : List String
  rows : List Row
deriving DecidableEq

/-- Cell lookup in a row; a missing key reads as null (NA). -/
def getCell (r : Row) (c : String) : Value :=
  match r.find? (fun p => p.1 == c) with
  | some p => p.2
  | none => Value.vNull

/-- Row projection onto a column list, as in `df[present]`. -/
def projectRow (cs : List String) (r : Row) : Row :=
  cs.map (fun c => (c, getCell r c))

/-- Data-frame projection `df[present]`: keep the listed columns. -/
def projectDF (df : DataFrame) (cs : List String) : DataFrame :=
  DataFrame.mk cs (df.rows.map (projectRow cs))

/-- Embedding of `read_table(conn, table, cols)` from `app.py`.
`res` is the result of `pd.read_sql_query`: `none` when the table does
not exist or the read raises (the `except` branch), `some df` when the
read succeeds.  `present` keeps the expected columns that occur in the
frame; if any is present the projection is returned, otherwise an empty
frame with the full expected schema. -/
def read_table (res : Option DataFrame) (cols : List String) : DataFrame :=
  match res with
  | some df =>
      let present := cols.filter (fun c => df.cols.contains c)
      if present.isEmpty then DataFrame.mk cols []
      else projectDF df present
  | none => DataFrame.mk cols []

/-- C1: the tolerant reader returns (a) on a failed/absent read, a
zero-row frame whose columns are exactly the expected list; (b) on a
successful read with at least one expected column present, the
projection onto the present expected columns in expected-list order;
(c) on a successful read with no expected column present, the same
zero-row frame with the full expected schema. -/
theorem read_table_tolerant_cases (df : DataFrame) (cols : List String) :
    read_table none cols = DataFrame.mk cols [] ∧
    ((∃ c ∈ cols, df.cols.contains c = true) →
      read_table (some df) cols =
        projectDF df (cols.filter (fun c => df.cols.contains c))) ∧
    ((∀ c ∈ cols, df.cols.contains c = false) →
      read_table (some df) cols = DataFrame.mk cols []) := by
  refine ⟨rfl, ?_, ?_⟩
  · rintro ⟨c, hc, hmem⟩
    have hne : ¬ ((cols.filter (fun c => df.cols.contains c)).isEmpty = true) := by
      rw [List.isEmpty_iff]
      intro h
      exact absurd hmem (by simpa using List.filter_eq_nil_iff.mp h c hc)
    simp only [read_table]
    rw [if_neg hne]
  · intro h
    have hnil : (cols.filter (fun c => df.cols.contains c)) = [] := by
      refine List.filter_eq_nil_iff.mpr (fun c hc => ?_)
      simp only [h c hc]
      decide
    simp only [read_table]
    rw [if_pos (List.isEmpty_iff.mpr hnil)]

/-- Witness for `read_table_tolerant_cases` at a concrete frame. -/
theorem read_table_tolerant_cases_witness :
    read_table (some (DataFrame.mk ["Name"] [[("Name", Value.vStr "A")]]))
        ["Name", "Career_Home_Runs"] =
      projectDF (DataFrame.mk ["Name"] [[("Name", Value.vStr "A")]])
        (["Name", "Career_Home_Runs"].filter
          (fun c => ["Name"].contains c)) := by
  exact (read_table_tolerant_cases
      (DataFrame.mk ["Name"] [[("Name", Value.vStr "A")]])
      ["Name", "Career_Home_Runs"]).2.1 ⟨"Name", by decide, by decide⟩

/-- C2 counterexample: the claim that every expected column is present
in every result is false: a stored `home_runs` table that has only the
column `Name` yields a result without `Career_Home_Runs`. -/
theorem read_table_missing_expected_column :
    ¬ ("Career_Home_Runs" ∈
        (read_table (some (DataFrame.mk ["Name"] [[("Name", Value.vStr "A")]]))
          ["Name", "Career_Home_Runs"]).cols) := by
  decide

/-- C2 amended: every result column of the tolerant reader comes from
the expected list and keeps its order (a sublist of the expected list);
when the read fails or the table is absent, the columns are exactly the
expected list. -/
theorem read_table_cols_sublist (res : Option DataFrame) (cols : List String) :
    List.Sublist (read_table res cols).cols cols ∧
    (read_table none cols).cols = cols := by
  refine ⟨?_, rfl⟩
  cases res with
  | none => exact List.Sublist.refl cols
  | some df =>
      simp only [read_table]
      by_cases h : ((cols.filter (fun c => df.cols.contains c)).isEmpty = true)
      · rw [if_pos h]
      · rw [if_neg h]
        exact List.filter_sublist cols

/-
Sorting.  `df.sort_values(col)` is embedded as an insertion sort by
the sort key.  Pandas' default sort kind guarantees the row multiset
and the key order but leaves the order of rows with equal keys
unspecified, so the embedding is used only for properties that are
invariant under the tie order: permutation with the input, pairwise
key order, sums over the rows, and sorts of duplicate-free key lists.
-/

variable {α : Type}

/-- Insert `r` into `l`, placing it after every element `x` with
`prec x r = true` (`prec` is the strict precedence test of the sort
order) and before the rest; equal-key elements already in `l` that do
not strictly precede `r` end up after it, which gives stability when
`l` collects elements that originally followed `r`. -/
def insertSorted (prec : α → α → Bool) (r : α) : List α → List α
  | [] => [r]
  | x :: xs => if prec x r then x :: insertSorted prec r xs else r :: x :: xs

/-- Stable insertion sort by the strict precedence test `prec`. -/
def sortBy (prec : α → α → Bool) : List α → List α
  | [] => []
  | x :: xs => insertSorted prec x (sortBy prec xs)

theorem perm_insertSorted (prec : α → α → Bool) (r : α) (l : List α) :
    List.Perm (insertSorted prec r l) (r :: l) := by
  induction l with
  | nil => exact List.Perm.refl _
  | cons x xs ih =>
      simp only [insertSorted]
      by_cases h : (prec x r = true)
      · rw [if_pos h]
        exact (ih.cons x).trans (List.Perm.swap r x xs)
      · rw [if_neg h]

theorem perm_sortBy (prec : α → α → Bool) (l : List α) :
    List.Perm (sortBy prec l) l := by
  induction l with
  | nil => exact List.Perm.refl _
  | cons x xs ih =>
      exact (perm_insertSorted prec x (sortBy prec xs)).trans (ih.cons x)

theorem pairwise_insertSorted {R : α → α → Prop} (prec : α → α → Bool)
    (htrue : ∀ a b, prec a b = true → R a b)
    (hfalse : ∀ a b, prec a b = false → R b a)
    (htrans : Transitive R) (r : α) (l : List α)
    (hl : l.Pairwise R) : (insertSorted prec r l).Pairwise R := by
  induction l with
  | nil => simp [insertSorted]
  | cons x xs ih =>
      rcases List.pairwise_cons.mp hl with ⟨hx, hxs⟩
      simp only [insertSorted]
      by_cases h : (prec x r = true)
      · rw [if_pos h]
        refine List.pairwise_cons.mpr ⟨?_, ih hxs⟩
        intro y hy
        rcases List.mem_cons.mp (((perm_insertSorted prec r xs).mem_iff).mp hy)
          with hy1 | hy1
        · exact hy1 ▸ htrue x r h
        · exact hx y hy1
      · rw [if_neg h]
        refine List.pairwise_cons.mpr ⟨?_, hl⟩
        intro y hy
        have hrx : R r x := hfalse x r (by simpa using h)
        rcases List.mem_cons.mp hy with hy' | hy'
        · exact hy' ▸ hrx
        · exact htrans hrx (hx y hy')

theorem pairwise_sortBy {R : α → α → Prop} (prec : α → α → Bool)
    (htrue : ∀ a b, prec a b = true → R a b)
    (hfalse : ∀ a b, prec a b = false → R b a)
    (htrans : Transitive R) (l : List α) :
    (sortBy prec l).Pairwise R := by
  induction l with
  | nil => simp [sortBy]
  | cons x xs ih =>
      exact pairwise_insertSorted prec htrue hfalse htrans x (sortBy prec xs) ih

/-- A row of the `home_runs` table (`Name`, `Career_Home_Runs`), as the
combined-player view merges it. -/
structure HRRow where
  name : String
  hr : Int
deriving DecidableEq

/-
Cumulative strikeouts view (chart 3 of `app.py`):
`df_k = df_career_strikeouts[df_career_strikeouts["League"] == league]`,
`df_k = df_k.sort_values("Career_Strikeouts")`,
`df_k["Cumulative"] = df_k["Career_Strikeouts"].cumsum()`.
-/

/-- A row of the `career_strikeouts` table as the view consumes it. -/
structure SRow where
  name : String
  league : String
  ks : Int
deriving DecidableEq

/-- Strict precedence for ascending `Career_Strikeouts` order. -/
def ksAsc (a b : SRow) : Bool := decide (a.ks < b.ks)

/-- Pandas `cumsum` paired with the rows it annotates: each row is
tagged with the running total including its own value. -/
def withCumulative (acc : Int) : List SRow → List (SRow × Int)
  | [] => []
  | r :: rs => (r, acc + r.ks) :: withCumulative (acc + r.ks) rs

/-- Embedding of the cumulative view: filter to the selected league,
sort ascending by `Career_Strikeouts`, annotate with the running sum. -/
def cumulativeView (df : List SRow) (league : String) : List (SRow × Int) :=
  withCumulative 0 (sortBy ksAsc (df.filter (fun r => r.league == league)))

/-- Cumulative column as the spec words it: the value at position `i`
is the sum of the source values of that row and all prior rows. -/
def specCumulative (l : List Int) : List Int :=
  (List.range l.length).map (fun i => ((l.take (i + 1)).sum))

/-- Concrete table from the spec example: strikeout values 40, 10, 25
(one order of the "any order" premise), all in one league. -/
def exampleStrikeouts : List SRow :=
  [SRow.mk "a" "AL" 40, SRow.mk "b" "AL" 10, SRow.mk "c" "AL" 25]

theorem withCumulative_fst (l : List SRow) (acc : Int) :
    (withCumulative acc l).map Prod.fst = l := by
  induction l generalizing acc with
  | nil => rfl
  | cons r rs ih => simp only [withCumulative, List.map_cons, ih]

theorem withCumulative_snd (l : List SRow) (acc : Int) :
    (withCumulative acc l).map Prod.snd =
      (List.range l.length).map
        (fun i => acc + ((l.take (i + 1)).map (fun r => r.ks)).sum) := by
  induction l generalizing acc with
  | nil => rfl
  | cons r rs ih =>
      simp only [withCumulative, List.map_cons, List.length_cons,
        List.range_succ_eq_map, List.map_map, ih]
      rw [List.cons.injEq]
      constructor
      · simp
      · refine List.map_congr_left ?_
        intro i _
        simp [Function.comp, add_assoc]

theorem withCumulative_last (l : List SRow) (acc : Int) :
    ((withCumulative acc l).map Prod.snd).getLast? =
      if l.isEmpty then none
      else some (acc + (l.map (fun r => r.ks)).sum) := by
  induction l generalizing acc with
  | nil => rfl
  | cons r rs ih =>
      cases rs with
      | nil => simp [withCumulative]
      | cons r2 rs2 =>
          simp only [withCumulative, List.map_cons, List.getLast?_cons_cons]
          have h := ih (acc + r.ks)
          simp only [withCumulative, List.map_cons] at h
          rw [h]
          simp [add_assoc]

/-- C4: the cumulative view holds the league-filtered rows sorted
ascending by `Career_Strikeouts` (a permutation of the filtered input,
pairwise ascending), the `Cumulative` column equals, at each position,
the sum of `Career_Strikeouts` of that row and all prior rows in the
sorted order, and on the spec example with values 40, 10, 25 the sorted
values are 10, 25, 40 with cumulative column 10, 35, 75. -/
theorem cumulativeView_spec (df : List SRow) (league : String) :
    (cumulativeView df league).map Prod.fst =
      sortBy ksAsc (df.filter (fun r => r.league == league)) ∧
    List.Perm ((cumulativeView df league).map Prod.fst)
      (df.filter (fun r => r.league == league)) ∧
    ((cumulativeView df league).map Prod.fst).Pairwise
      (fun a b => a.ks ≤ b.ks) ∧
    (cumulativeView df league).map Prod.snd =
      specCumulative (((cumulativeView df league).map Prod.fst).map
        (fun r => r.ks)) ∧
    (cumulativeView exampleStrikeouts "AL").map (fun p => p.1.ks) =
      [10, 25, 40] ∧
    (cumulativeView exampleStrikeouts "AL").map Prod.snd = [10, 35, 75] := by
  have hfst : (cumulativeView df league).map Prod.fst =
      sortBy ksAsc (df.filter (fun r => r.league == league)) :=
    withCumulative_fst _ 0
  refine ⟨hfst, ?_, ?_, ?_, by decide, by decide⟩
  · rw [hfst]
    exact perm_sortBy _ _
  · rw [hfst]
    refine pairwise_sortBy ksAsc ?_ ?_ ?_ _
    · intro a b h
      exact le_of_lt (of_decide_eq_true h)
    · intro a b h
      exact not_lt.mp (of_decide_eq_false h)
    · intro a b c hab hbc
      exact le_trans hab hbc
  · rw [hfst]
    rw [cumulativeView, withCumulative_snd]
    rw [specCumulative]
    simp only [List.length_map, List.map_take]
    refine List.map_congr_left ?_
    intro i _
    simp

theorem cumulativeView_getLast (df : List SRow) (league : String) :
    ((cumulativeView df league).map Prod.snd).getLast? =
      if (df.filter (fun r => r.league == league)).isEmpty then none
      else some (((df.filter (fun r => r.league == league)).map
        (fun r => r.ks)).sum) := by
  rw [cumulativeView, withCumulative_last]
  have hperm := perm_sortBy ksAsc (df.filter (fun r => r.league == league))
  by_cases hnil : (df.filter (fun r => r.league == league)) = []
  · rw [hnil]
    rfl
  · have hs : sortBy ksAsc (df.filter (fun r => r.league == league)) ≠ [] := by
      intro h
      rw [h] at hperm
      exact hnil (List.Perm.nil_eq hperm).symm
    rw [if_neg (fun h => hs (List.isEmpty_iff.mp h)),
      if_neg (fun h => hnil (List.isEmpty_iff.mp h))]
    rw [zero_add, (hperm.map (fun r => r.ks)).sum_eq]

/-- C10: the last `Cumulative` value of the cumulative view equals the
total sum of `Career_Strikeouts` over the rows matching the selected
league, and permuting the input rows does not change that last value
(the sort reorders rows but the running total ends at the same sum). -/
theorem cumulativeView_last_total (df df' : List SRow) (league : String)
    (hp : List.Perm df df') :
    (((cumulativeView df league).map Prod.snd).getLast?).getD 0 =
      ((df.filter (fun r => r.league == league)).map (fun r => r.ks)).sum ∧
    ((cumulativeView df league).map Prod.snd).getLast? =
      ((cumulativeView df' league).map Prod.snd).getLast? := by
  constructor
  · rw [cumulativeView_getLast]
    by_cases hnil : (df.filter (fun r => r.league == league)) = []
    · rw [hnil]
      rfl
    · rw [if_neg (fun h => hnil (List.isEmpty_iff.mp h))]
      rfl
  · rw [cumulativeView_getLast, cumulativeView_getLast]
    have hpf := hp.filter (fun r => r.league == league)
    by_cases hnil : (df.filter (fun r => r.league == league)) = []
    · have hnil' : (df'.filter (fun r => r.league == league)) = [] := by
        rw [hnil] at hpf
        exact (List.Perm.nil_eq hpf).symm
      rw [hnil, hnil']
    · have hnil' : (df'.filter (fun r => r.league == league)) ≠ [] := by
        intro h
        rw [h] at hpf
        exact hnil (List.perm_nil.mp hpf)
      rw [if_neg (fun h => hnil (List.isEmpty_iff.mp h)),
        if_neg (fun h => hnil' (List.isEmpty_iff.mp h)),
        (hpf.map (fun r => r.ks)).sum_eq]

/-- Witness for `cumulativeView_last_total` on a two-row table and a
permutation of it. -/
theorem cumulativeView_last_total_witness :
    (((cumulativeView [SRow.mk "a" "AL" 2, SRow.mk "b" "AL" 1] "AL").map
        Prod.snd).getLast?).getD 0 =
      (([SRow.mk "a" "AL" 2, SRow.mk "b" "AL" 1].filter
        (fun r => r.league == "AL")).map (fun r => r.ks)).sum ∧
    ((cumulativeView [SRow.mk "a" "AL" 2, SRow.mk "b" "AL" 1] "AL").map
        Prod.snd).getLast? =
      ((cumulativeView [SRow.mk "b" "AL" 1, SRow.mk "a" "AL" 2] "AL").map
        Prod.snd).getLast? :=
  cumulativeView_last_total _ _ "AL" (by decide)

/-
Time-series view (chart 1 of `app.py`): `df_line = df_batting`, then
`if years: df_line = df_line[df_line["Year"].isin(years)]` and
`if teams: df_line = df_line[df_line["Team"].isin(teams)]`.  The
sidebar computes the available selections as
`sorted(df_batting["Year"].dropna().unique())` (same for Team), so a
null cell never appears among the selectable values, while `isin`
never matches a null cell.
-/

/-- A row of the `batting_avg` table.  `Year` is imported as nullable
Int64 and `Team` as an object column, so both cells may be NA. -/
structure BattingRow where
  name : String
  team : Option String
  year : Option Int
  avg : Option Rat
deriving DecidableEq

/-- Pandas `Series.isin` on the `Year` column: a null cell matches no
selected value. -/
def yearMatches (r : BattingRow) (years : List Int) : Bool :=
  match r.year with
  | some y => years.contains y
  | none => false

/-- Pandas `Series.isin` on the `Team` column. -/
def teamMatches (r : BattingRow) (teams : List String) : Bool :=
  match r.team with
  | some t => teams.contains t
  | none => false

/-- Embedding of the time-series filtering: an empty selection list is
falsy in Python, so its filter is skipped entirely. -/
def timeSeriesView (df : List BattingRow) (years : List Int)
    (teams : List String) : List BattingRow :=
  let d1 := if years.isEmpty then df
    else df.filter (fun r => yearMatches r years)
  if teams.isEmpty then d1 else d1.filter (fun r => teamMatches r teams)

/-- Sidebar `all_years`: `sorted(df_batting["Year"].dropna().unique())`. -/
def allYears (df : List BattingRow) : List Int :=
  sortBy (fun a b => decide (a < b)) ((df.filterMap (fun r => r.year)).dedup)

/-- Sidebar `all_teams`: `sorted(df_batting["Team"].dropna().unique())`. -/
def allTeams (df : List BattingRow) : List String :=
  sortBy (fun a b => decide (a < b)) ((df.filterMap (fun r => r.team)).dedup)

/-- C5 counterexample: on a table containing a row with a null `Year`,
the empty year selection (no filter, keeps the null-year row) differs
from selecting all available years (`dropna` excludes the null, so the
null-year row is filtered out). -/
theorem timeSeriesView_null_year_counterexample :
    timeSeriesView
        [BattingRow.mk "A" (some "T") (some 2001) none,
         BattingRow.mk "B" (some "T") none none] [] [] ≠
      timeSeriesView
        [BattingRow.mk "A" (some "T") (some 2001) none,
         BattingRow.mk "B" (some "T") none none]
        (allYears
          [BattingRow.mk "A" (some "T") (some 2001) none,
           BattingRow.mk "B" (some "T") none none]) [] := by
  decide

/-- C5 amended: on tables in which every row has a non-null `Year` and
a non-null `Team`, an empty selected-years list yields the same view as
selecting all available years, and an empty selected-teams list yields
the same view as selecting all available teams.  (A row with a null
`Year` or `Team` survives the empty selection but not the select-all
one, because the available selections are computed after `dropna`.) -/
theorem timeSeriesView_empty_passes_all (df : List BattingRow)
    (years : List Int) (teams : List String)
    (hy : ∀ r ∈ df, r.year.isSome = true)
    (ht : ∀ r ∈ df, r.team.isSome = true) :
    timeSeriesView df [] teams = timeSeriesView df (allYears df) teams ∧
    timeSeriesView df years [] = timeSeriesView df years (allTeams df) := by
  constructor
  · have hd1 : (if (allYears df).isEmpty then df
        else df.filter (fun r => yearMatches r (allYears df))) = df := by
      by_cases h : ((allYears df).isEmpty = true)
      · rw [if_pos h]
      · rw [if_neg h]
        refine List.filter_eq_self.mpr ?_
        intro r hr
        rcases hys : r.year with _ | y
        · exact absurd (hy r hr) (by simp [hys])
        · have hmem : y ∈ allYears df := by
            rw [allYears,
              (perm_sortBy (fun a b => decide (a < b))
                ((df.filterMap (fun r => r.year)).dedup)).mem_iff,
              List.mem_dedup]
            exact List.mem_filterMap.mpr ⟨r, hr, hys⟩
          simp [yearMatches, hys, hmem]
    simp only [timeSeriesView, List.isEmpty_nil, if_true, hd1]
  · have hsub : ∀ r ∈ (if years.isEmpty then df
        else df.filter (fun r => yearMatches r years)), r ∈ df := by
      by_cases h : (years.isEmpty = true)
      · rw [if_pos h]
        exact fun r hr => hr
      · rw [if_neg h]
        exact fun r hr => List.mem_of_mem_filter hr
    have hd2 : ∀ d1 : List BattingRow, (∀ r ∈ d1, r ∈ df) →
        (if (allTeams df).isEmpty then d1
          else d1.filter (fun r => teamMatches r (allTeams df))) = d1 := by
      intro d1 hd1
      by_cases h : ((allTeams df).isEmpty = true)
      · rw [if_pos h]
      · rw [if_neg h]
        refine List.filter_eq_self.mpr ?_
        intro r hr
        rcases hts : r.team with _ | t
        · exact absurd (ht r (hd1 r hr)) (by simp [hts])
        · have hmem : t ∈ allTeams df := by
            rw [allTeams,
              (perm_sortBy (fun a b => decide (a < b))
                ((df.filterMap (fun r => r.team)).dedup)).mem_iff,
              List.mem_dedup]
            exact List.mem_filterMap.mpr ⟨r, hd1 r hr, hts⟩
          simp [teamMatches, hts, hmem]
    simp only [timeSeriesView, List.isEmpty_nil, if_true]
    exact (hd2 _ hsub).symm

/-- Witness for `timeSeriesView_empty_passes_all` on a one-row table
with non-null cells. -/
theorem timeSeriesView_empty_passes_all_witness :
    timeSeriesView [BattingRow.mk "A" (some "T") (some 2001) none] [] ["T"] =
      timeSeriesView [BattingRow.mk "A" (some "T") (some 2001) none]
        (allYears [BattingRow.mk "A" (some "T") (some 2001) none]) ["T"] ∧
    timeSeriesView [BattingRow.mk "A" (some "T") (some 2001) none] [2001] [] =
      timeSeriesView [BattingRow.mk "A" (some "T") (some 2001) none] [2001]
        (allTeams [BattingRow.mk "A" (some "T") (some 2001) none]) :=
  timeSeriesView_empty_passes_all _ [2001] ["T"] (by decide) (by decide)

/-
Combined-player view of `app.py`:
`df_combined = df_batting[df_batting["Name"] == selected_player].copy()`,
then `df_combined = df_combined.merge(df_home_runs, on="Name",
how="left")` guarded by `if not df_home_runs.empty`, and the same for
`df_career_strikeouts`.  A left merge keeps every left row, duplicates
it once per matching right row, and fills the right columns with NA
when no right row matches; when a merge is skipped (empty right table)
its columns never appear in the output at all.
-/

/-- An output row of the combined view: the batting row it came from
plus the merged columns.  An outer `none` means the column is absent
(its merge was skipped); `some none` is a present column holding NA. -/
structure CombinedRow where
  base : BattingRow
  hrCol : Option (Option Int)
  leagueCol : Option (Option String)
  ksCol : Option (Option Int)
deriving DecidableEq

/-- Left merge with the `home_runs` table on `Name`. -/
def mergeHR : List CombinedRow → List HRRow → List CombinedRow
  | [], _ => []
  | r :: rs, tab =>
      (match tab.filter (fun m => m.name == r.base.name) with
       | [] => [{ r with hrCol := some none }]
       | m :: ms => (m :: ms).map
           (fun m2 => { r with hrCol := some (some m2.hr) })) ++
        mergeHR rs tab

/-- Left merge with the `career_strikeouts` table on `Name`. -/
def mergeK : List CombinedRow → List SRow → List CombinedRow
  | [], _ => []
  | r :: rs, tab =>
      (match tab.filter (fun m => m.name == r.base.name) with
       | [] => [{ r with leagueCol := some none, ksCol := some none }]
       | m :: ms => (m :: ms).map
           (fun m2 => { r with leagueCol := some (some m2.league),
                               ksCol := some (some m2.ks) })) ++
        mergeK rs tab

/-- Embedding of the combined view for a selected player. -/
def combinedView (batting : List BattingRow) (hrtab : List HRRow)
    (ktab : List SRow) (player : String) : List CombinedRow :=
  let base := (batting.filter (fun r => r.name == player)).map
    (fun b => CombinedRow.mk b none none none)
  let s1 := if hrtab.isEmpty then base else mergeHR base hrtab
  if ktab.isEmpty then s1 else mergeK s1 ktab

theorem mergeHR_single (rows : List CombinedRow) (tab : List HRRow)
    (player : String) (h : HRRow)
    (hrows : ∀ r ∈ rows, r.base.name = player)
    (htab : tab.filter (fun m => m.name == player) = [h]) :
    mergeHR rows tab =
      rows.map (fun r => { r with hrCol := some (some h.hr) }) := by
  induction rows with
  | nil => rfl
  | cons r rs ih =>
      have hname : r.base.name = player := hrows r (List.mem_cons_self r rs)
      simp only [mergeHR, hname, htab, List.map_cons]
      rw [ih (fun x hx => hrows x (List.mem_cons_of_mem r hx))]
      rfl

theorem mergeK_nomatch (rows : List CombinedRow) (tab : List SRow)
    (player : String)
    (hrows : ∀ r ∈ rows, r.base.name = player)
    (htab : tab.filter (fun m => m.name == player) = []) :
    mergeK rows tab =
      rows.map (fun r =>
        { r with leagueCol := some none, ksCol := some none }) := by
  induction rows with
  | nil => rfl
  | cons r rs ih =>
      have hname : r.base.name = player := hrows r (List.mem_cons_self r rs)
      simp only [mergeK, hname, htab, List.map_cons]
      rw [ih (fun x hx => hrows x (List.mem_cons_of_mem r hx))]
      rfl

/-- C6: when the `home_runs` table has exactly one row for the selected
player and the `career_strikeouts` table has none, the combined view
keeps every batting row of that player exactly once and in order (its
projection to the batting columns is exactly the player's filtered
batting rows, so a player with batting rows for two years yields
exactly two output rows), every output row carries that one
`Career_Home_Runs` value, and `Career_Strikeouts` is the absent column
when the strikeouts table is empty and a present NA cell otherwise. -/
theorem combinedView_left_join (batting : List BattingRow)
    (hrtab : List HRRow) (ktab : List SRow) (player : String) (h : HRRow)
    (hhr : hrtab.filter (fun m => m.name == player) = [h])
    (hk : ktab.filter (fun m => m.name == player) = []) :
    (combinedView batting hrtab ktab player).map (fun r => r.base) =
      batting.filter (fun r => r.name == player) ∧
    (combinedView batting hrtab ktab player).length =
      (batting.filter (fun r => r.name == player)).length ∧
    (∀ r ∈ combinedView batting hrtab ktab player,
      r.hrCol = some (some h.hr)) ∧
    (∀ r ∈ combinedView batting hrtab ktab player,
      r.ksCol = if ktab.isEmpty then none else some none) := by
  have hhrne : ¬ (hrtab.isEmpty = true) := by
    intro he
    rw [List.isEmpty_iff.mp he] at hhr
    exact List.cons_ne_nil h [] hhr.symm
  have hbase : ∀ x ∈ (batting.filter (fun r => r.name == player)).map
      (fun b => CombinedRow.mk b none none none), x.base.name = player := by
    intro x hx
    rcases List.mem_map.mp hx with ⟨b, hb, hxb⟩
    have := List.of_mem_filter hb
    rw [← hxb]
    exact eq_of_beq this
  have hs1 : (if hrtab.isEmpty then
        (batting.filter (fun r => r.name == player)).map
          (fun b => CombinedRow.mk b none none none)
      else mergeHR ((batting.filter (fun r => r.name == player)).map
          (fun b => CombinedRow.mk b none none none)) hrtab) =
      (batting.filter (fun r => r.name == player)).map
        (fun b => CombinedRow.mk b (some (some h.hr)) none none) := by
    rw [if_neg hhrne,
      mergeHR_single _ hrtab player h hbase hhr, List.map_map]
    rfl
  have hview : combinedView batting hrtab ktab player =
      if ktab.isEmpty then
        (batting.filter (fun r => r.name == player)).map
          (fun b => CombinedRow.mk b (some (some h.hr)) none none)
      else
        (batting.filter (fun r => r.name == player)).map
          (fun b => CombinedRow.mk b (some (some h.hr)) (some none)
            (some none)) := by
    simp only [combinedView, hs1]
    by_cases hke : (ktab.isEmpty = true)
    · rw [if_pos hke, if_pos hke]
    · rw [if_neg hke, if_neg hke]
      have hbase2 : ∀ x ∈ (batting.filter (fun r => r.name == player)).map
          (fun b => CombinedRow.mk b (some (some h.hr)) none none),
          x.base.name = player := by
        intro x hx
        rcases List.mem_map.mp hx with ⟨b, hb, hxb⟩
        have hbp : (b.name == player) = true := (List.mem_filter.mp hb).2
        rw [← hxb]
        exact eq_of_beq hbp
      rw [mergeK_nomatch _ ktab player hbase2 hk, List.map_map]
      rfl
  by_cases hke : (ktab.isEmpty = true)
  · rw [hview, if_pos hke]
    refine ⟨?_, ?_, ?_, ?_⟩
    · rw [List.map_map]
      exact List.map_id _
    · rw [List.length_map]
    · intro r hr
      rcases List.mem_map.mp hr with ⟨b, _, hxb⟩
      rw [← hxb]
    · intro r hr
      rcases List.mem_map.mp hr with ⟨b, _, hxb⟩
      rw [if_pos hke, ← hxb]
  · rw [hview, if_neg hke]
    refine ⟨?_, ?_, ?_, ?_⟩
    · rw [List.map_map]
      exact List.map_id _
    · rw [List.length_map]
    · intro r hr
      rcases List.mem_map.mp hr with ⟨b, _, hxb⟩
      rw [← hxb]
    · intro r hr
      rcases List.mem_map.mp hr with ⟨b, _, hxb⟩
      rw [if_neg hke, ← hxb]

/-- Concrete batting table for the C6 witness: player `P` with rows for
2001 and 2002, plus an unrelated player. -/
def battingP : List BattingRow :=
  [BattingRow.mk "P" (some "T") (some 2001) none,
   BattingRow.mk "P" (some "T") (some 2002) none,
   BattingRow.mk "Q" (some "T") (some 2001) none]

/-- Concrete home-runs table for the C6 witness: one row for `P`. -/
def hrTabP : List HRRow := [HRRow.mk "P" 300, HRRow.mk "Q" 5]

/-- Concrete strikeouts table for the C6 witness: no row for `P`. -/
def kTabQ : List SRow := [SRow.mk "Q" "AL" 100]

/-- Witness for `combinedView_left_join`: player `P` has batting rows
for 2001 and 2002 and one home-run record; the view has exactly two
rows, each with that home-run value and an NA strikeout cell. -/
theorem combinedView_left_join_witness :
    ((combinedView battingP hrTabP kTabQ "P").map (fun r => r.base) =
      battingP.filter (fun r => r.name == "P") ∧
    (combinedView battingP hrTabP kTabQ "P").length =
      (battingP.filter (fun r => r.name == "P")).length ∧
    (∀ r ∈ combinedView battingP hrTabP kTabQ "P",
      r.hrCol = some (some (HRRow.mk "P" 300).hr)) ∧
    (∀ r ∈ combinedView battingP hrTabP kTabQ "P",
      r.ksCol = if kTabQ.isEmpty then none else some none)) ∧
    (combinedView battingP hrTabP kTabQ "P").length = 2 :=
  ⟨combinedView_left_join battingP hrTabP kTabQ "P" (HRRow.mk "P" 300)
    (by decide) (by decide), by decide⟩

/-
Importer (`import_csvs.py`): read each fixed-name CSV, normalize its
column names, best-effort cast the declared column dtypes, and write
the frame to the store with `if_exists="replace"`.
-/

/-- A declared pandas dtype from `CSV_DTYPES`. -/
inductive Dtype where
  | dStr : Dtype
  | dInt64 : Dtype
  | dFloat : Dtype
deriving DecidableEq

/-- A CSV file as `pd.read_csv` yields it: headers plus cell rows. -/
structure CSVFile where
  headers : List String
  cells : List (List Value)
deriving DecidableEq

/-- Column-name normalization: `c.strip().replace(" ", "_")`. -/
def normName (c : String) : String := (c.trim).replace " " "_"

/-- The `CSV_DTYPES` mapping of `import_csvs.py`. -/
def CSV_DTYPES (table : String) : List (String × Dtype) :=
  if table = "batting_avg" then
    [("Name", Dtype.dStr), ("Team", Dtype.dStr), ("Year", Dtype.dInt64),
     ("Batting_Average", Dtype.dFloat)]
  else if table = "home_runs" then
    [("Name", Dtype.dStr), ("Career_Home_Runs", Dtype.dInt64)]
  else if table = "career_strikeouts" then
    [("Name", Dtype.dStr), ("League", Dtype.dStr),
     ("Career_Strikeouts", Dtype.dInt64)]
  else []

/-- Cast of one cell to a declared dtype; `none` when the cast raises.
NA survives every cast (the declared dtypes are nullable).  Parsing a
numeric string for the float dtype is not modelled: such a cast counts
as failing, and `errors="ignore"` then keeps the column unchanged. -/
def castValue (t : Dtype) (v : Value) : Option Value :=
  match t, v with
  | _, Value.vNull => some Value.vNull
  | Dtype.dStr, Value.vStr s => some (Value.vStr s)
  | Dtype.dStr, Value.vInt n => some (Value.vStr (toString n))
  | Dtype.dStr, Value.vRat q => some (Value.vStr (toString q))
  | Dtype.dInt64, Value.vInt n => some (Value.vInt n)
  | Dtype.dInt64, Value.vStr s => (s.toInt?).map Value.vInt
  | Dtype.dInt64, Value.vRat _ => none
  | Dtype.dFloat, Value.vInt n => some (Value.vRat (n : Rat))
  | Dtype.dFloat, Value.vRat q => some (Value.vRat q)
  | Dtype.dFloat, Value.vStr _ => none

/-- `df[col].astype(typ, errors="ignore")`: replace the column when
every cell casts, keep it whole otherwise; a column not present in the
frame is left alone (`if col in df.columns`). -/
def coerceColumn (df : DataFrame) (col : String) (t : Dtype) : DataFrame :=
  if df.cols.contains col then
    match (df.rows.map (fun r => getCell r col)).mapM (castValue t) with
    | some newCells =>
        DataFrame.mk df.cols
          ((df.rows.zip newCells).map
            (fun p => p.1.map (fun q => if q.1 == col then (q.1, p.2) else q)))
    | none => df
  else df

/-- The frame `import_one` builds from a CSV: normalized column names,
then the declared dtypes applied in order. -/
def normalizeTable (table : String) (f : CSVFile) : DataFrame :=
  let cols := f.headers.map normName
  (CSV_DTYPES table).foldl (fun d p => coerceColumn d p.1 p.2)
    (DataFrame.mk cols (f.cells.map (fun vs => cols.zip vs)))

/-- The sqlite store: tables by name. -/
abbrev Store := List (String × DataFrame)

/-- Read a table from the store. -/
def getTable (s : Store) (t : String) : Option DataFrame :=
  (s.find? (fun p => p.1 == t)).map (fun p => p.2)

/-- `df.to_sql(table, conn, if_exists="replace", index=False)`: drop
any table of that name and write the new frame. -/
def setTable (s : Store) (t : String) (df : DataFrame) : Store :=
  (t, df) :: s.filter (fun p => ! (p.1 == t))

/-- Embedding of `import_one(csv_name, table_name, conn)`: `csv` is
`none` when the CSV file does not exist, in which case the function
logs a skip and leaves the store untouched. -/
def import_one (csv : Option CSVFile) (table : String) (s : Store) : Store :=
  match csv with
  | none => s
  | some f => setTable s table (normalizeTable table f)

theorem getTable_setTable_same (s : Store) (t : String) (df : DataFrame) :
    getTable (setTable s t df) t = some df := by
  simp [getTable, setTable, List.find?_cons_of_pos]

theorem find?_filter_ne (s : Store) (table t2 : String) (h : t2 ≠ table) :
    (s.filter (fun p => ! (p.1 == table))).find? (fun p => p.1 == t2) =
      s.find? (fun p => p.1 == t2) := by
  induction s with
  | nil => rfl
  | cons x xs ih =>
      simp only [List.filter_cons]
      by_cases hxt : ((x.1 == table) = true)
      · have hx2 : (x.1 == t2) = false := by
          refine beq_eq_false_iff_ne.mpr ?_
          intro hh
          exact h (hh.symm.trans (eq_of_beq hxt))
        rw [hxt]
        simp only [Bool.not_true, Bool.false_eq_true, if_false]
        rw [ih, List.find?_cons]
        simp [hx2]
      · have hxt2 : (x.1 == table) = false := by simpa using hxt
        rw [hxt2]
        simp only [Bool.not_false, if_true]
        rw [List.find?_cons, List.find?_cons]
        cases hx2 : (x.1 == t2) <;> simp [hx2, ih]

theorem getTable_setTable_other (s : Store) (t t2 : String) (df : DataFrame)
    (h : t2 ≠ t) : getTable (setTable s t df) t2 = getTable s t2 := by
  simp only [getTable, setTable]
  rw [List.find?_cons]
  have hne : ((t, df).1 == t2) = false :=
    beq_eq_false_iff_ne.mpr (fun hh => h hh.symm)
  simp only [hne]
  rw [find?_filter_ne s t t2 h]

theorem getTable_import_one_other (csv : Option CSVFile) (t t2 : String)
    (s : Store) (h : t2 ≠ t) :
    getTable (import_one csv t s) t2 = getTable s t2 := by
  cases csv with
  | none => rfl
  | some f => exact getTable_setTable_other s t t2 _ h

/-- C7: importing the same CSV twice in a row leaves the target table
(and in fact the whole store) identical to importing it once: the
second `to_sql(..., if_exists="replace")` replaces the table with the
same deterministic frame. -/
theorem import_one_idempotent (csv : Option CSVFile) (table : String)
    (s : Store) :
    getTable (import_one csv table (import_one csv table s)) table =
      getTable (import_one csv table s) table ∧
    import_one csv table (import_one csv table s) =
      import_one csv table s := by
  have hstore : import_one csv table (import_one csv table s) =
      import_one csv table s := by
    cases csv with
    | none => rfl
    | some f =>
        simp only [import_one, setTable]
        rw [List.cons.injEq]
        refine ⟨rfl, ?_⟩
        rw [List.filter_cons]
        simp only [beq_self_eq_true, Bool.not_true, Bool.false_eq_true,
          if_false]
        simp [List.filter_filter]
  exact ⟨by rw [hstore], hstore⟩

/-- C9: a successful `import_one` replaces exactly the target table
with the normalized CSV frame and leaves every other table unchanged. -/
theorem import_one_frame (f : CSVFile) (table : String) (s : Store) :
    getTable (import_one (some f) table s) table =
      some (normalizeTable table f) ∧
    (∀ t2, t2 ≠ table →
      getTable (import_one (some f) table s) t2 = getTable s t2) := by
  constructor
  · exact getTable_setTable_same s table _
  · intro t2 h
    exact getTable_setTable_other s table t2 _ h

/-- Concrete CSV for the importer witnesses. -/
def csvB : CSVFile :=
  CSVFile.mk ["Name", " Batting Average"] [[Value.vStr "x", Value.vInt 3]]

/-- Concrete store for the importer witnesses. -/
def storeW : Store := [("home_runs", DataFrame.mk ["Name"] [])]

/-- Witness for `import_one_frame`: importing `batting_avg` into a
store holding `home_runs` rewrites only `batting_avg`. -/
theorem import_one_frame_witness :
    getTable (import_one (some csvB) "batting_avg" storeW) "batting_avg" =
      some (normalizeTable "batting_avg" csvB) ∧
    getTable (import_one (some csvB) "batting_avg" storeW) "home_runs" =
      getTable storeW "home_runs" :=
  ⟨(import_one_frame csvB "batting_avg" storeW).1,
   (import_one_frame csvB "batting_avg" storeW).2 "home_runs" (by decide)⟩

/-- The fixed (source file, target table) pairs of `REQUIRED`. -/
def REQUIRED : List (String × String) :=
  [("batting_avg.csv", "batting_avg"), ("home_runs.csv", "home_runs"),
   ("career_strikeouts.csv", "career_strikeouts")]

/-- The CSV directory contents: files by name. -/
abbrev FileSys := List (String × CSVFile)

/-- File-existence check plus read: `none` when the file is missing. -/
def findFile (fs : FileSys) (name : String) : Option CSVFile :=
  (fs.find? (fun p => p.1 == name)).map (fun p => p.2)

/-- One loop iteration of `main`: run `import_one` on the pair and
append its log line (skip warning or loaded message). -/
def importStep (fs : FileSys) (st : Store × List String)
    (p : String × String) : Store × List String :=
  (import_one (findFile fs p.1) p.2 st.1,
   st.2 ++ [match findFile fs p.1 with
            | none => "skipped " ++ p.2
            | some _ => "loaded " ++ p.2])

/-- Embedding of `main()`: a missing CSV directory prints a diagnostic
and returns before touching the store; otherwise every `REQUIRED` pair
runs through `import_one` in order. -/
def mainImport (dirExists : Bool) (fs : FileSys) (s : Store) :
    Store × List String :=
  if dirExists then REQUIRED.foldl (importStep fs) (s, [])
  else (s, ["CSV directory not found"])

/-- C8: when the CSV directory is missing, `main` emits a diagnostic
and leaves the store untouched (nothing imported); when the directory
exists, each pair whose CSV file is missing keeps its previous table
and only logs a skip, while every pair whose file exists gets its
table replaced by the normalized CSV frame. -/
theorem mainImport_error_handling (fs : FileSys) (s : Store) :
    mainImport false fs s = (s, ["CSV directory not found"]) ∧
    (∀ p ∈ REQUIRED, findFile fs p.1 = none →
      getTable (mainImport true fs s).1 p.2 = getTable s p.2 ∧
      ("skipped " ++ p.2) ∈ (mainImport true fs s).2) ∧
    (∀ p ∈ REQUIRED, ∀ f, findFile fs p.1 = some f →
      getTable (mainImport true fs s).1 p.2 =
        some (normalizeTable p.2 f)) := by
  have hst : (mainImport true fs s).1 =
      import_one (findFile fs "career_strikeouts.csv") "career_strikeouts"
        (import_one (findFile fs "home_runs.csv") "home_runs"
          (import_one (findFile fs "batting_avg.csv") "batting_avg" s)) :=
    rfl
  have hlog : (mainImport true fs s).2 =
      [match findFile fs "batting_avg.csv" with
       | none => "skipped " ++ "batting_avg"
       | some _ => "loaded " ++ "batting_avg",
       match findFile fs "home_runs.csv" with
       | none => "skipped " ++ "home_runs"
       | some _ => "loaded " ++ "home_runs",
       match findFile fs "career_strikeouts.csv" with
       | none => "skipped " ++ "career_strikeouts"
       | some _ => "loaded " ++ "career_strikeouts"] := rfl
  refine ⟨rfl, ?_, ?_⟩
  · intro p hp hf
    simp only [REQUIRED, List.mem_cons, List.mem_singleton,
      List.not_mem_nil, or_false] at hp
    rcases hp with rfl | rfl | rfl
    · refine ⟨?_, ?_⟩
      · rw [hst, getTable_import_one_other _ _ _ _ (by decide),
          getTable_import_one_other _ _ _ _ (by decide)]
        rw [hf]
        rfl
      · rw [hlog]
        rw [hf]
        simp
    · refine ⟨?_, ?_⟩
      · rw [hst, getTable_import_one_other _ _ _ _ (by decide)]
        rw [hf]
        show getTable (import_one (findFile fs "batting_avg.csv")
          "batting_avg" s) "home_runs" = getTable s "home_runs"
        exact getTable_import_one_other _ _ _ _ (by decide)
      · rw [hlog]
        rw [hf]
        simp
    · refine ⟨?_, ?_⟩
      · rw [hst, hf]
        show getTable (import_one (findFile fs "home_runs.csv") "home_runs"
          (import_one (findFile fs "batting_avg.csv") "batting_avg" s))
          "career_strikeouts" = getTable s "career_strikeouts"
        rw [getTable_import_one_other _ _ _ _ (by decide)]
        exact getTable_import_one_other _ _ _ _ (by decide)
      · rw [hlog]
        rw [hf]
        simp
  · intro p hp f hf
    simp only [REQUIRED, List.mem_cons, List.mem_singleton,
      List.not_mem_nil, or_false] at hp
    rcases hp with rfl | rfl | rfl
    · rw [hst, getTable_import_one_other _ _ _ _ (by decide),
        getTable_import_one_other _ _ _ _ (by decide), hf]
      exact getTable_setTable_same _ _ _
    · rw [hst, getTable_import_one_other _ _ _ _ (by decide), hf]
      exact getTable_setTable_same _ _ _
    · rw [hst, hf]
      exact getTable_setTable_same _ _ _

/-- Second concrete CSV for the C8 witness. -/
def csvK : CSVFile := CSVFile.mk ["Name"] []

/-- Concrete directory for the C8 witness: `home_runs.csv` is missing,
the two other files exist. -/
def fs0 : FileSys :=
  [("batting_avg.csv", csvB), ("career_strikeouts.csv", csvK)]

/-- Witness for `mainImport_error_handling`: with `home_runs.csv`
missing, only that table is skipped (logged) and the present files
are loaded. -/
theorem mainImport_error_handling_witness :
    mainImport false fs0 [] = ([], ["CSV directory not found"]) ∧
    (getTable (mainImport true fs0 []).1 "home_runs" =
        getTable [] "home_runs" ∧
      ("skipped " ++ "home_runs") ∈ (mainImport true fs0 []).2) ∧
    getTable (mainImport true fs0 []).1 "batting_avg" =
      some (normalizeTable "batting_avg" csvB) :=
  ⟨(mainImport_error_handling fs0 []).1,
   (mainImport_error_handling fs0 []).2.1 ("home_runs.csv", "home_runs")
     (by decide) (by decide),
   (mainImport_error_handling fs0 []).2.2 ("batting_avg.csv", "batting_avg")
     (by decide) csvB (by decide)⟩

end BaseballDash
